import Mathlib

/-!
Verification of the conversation-context manager of the chatbot repository
(src/chatbot/model.py, class AIChat).  The tokenizer and the language model
are external capabilities; they are modelled as oracle parameters
(`enc`, `gen`, `dec`) and the contracts the specification attributes to them
are stated as explicit predicates (`GenPrefixWF`, `GenLenWF`).  Everything
else is a direct translation of `AIChat.generate_response` and
`AIChat.reset_chat`: the conversation state `chat_history_ids` is an
`Option (List ℕ)` (`none` is Python's `None`), token tensors are `List ℕ`,
and the Python slice `[-history_to_keep:]` is given its exact semantics by
`pySliceFrom`.
-/

/-- Context-window limit, `self.max_history_tokens = 1024` (model.py line 36). -/
def max_history_tokens : ℕ := 1024

/-- Default value of the `max_length` parameter of `generate_response`
(model.py line 38). -/
def default_max_length : ℕ := 1000

/-- The generation parameters handed to `model.generate` (model.py lines 70-84).
Numeric sampling knobs are recorded as rationals; they are inert configuration
data, never computed with. -/
structure GenParams where
  max_length : ℕ
  no_repeat_ngram_size : ℕ
  do_sample : Bool
  top_k : ℕ
  top_p : ℚ
  temperature : ℚ
  min_length : ℕ
  repetition_penalty : ℚ
  length_penalty : ℚ
  early_stopping : Bool
  num_return_sequences : ℕ

/-- The fixed argument list of the `model.generate` call in
`generate_response` (model.py lines 70-84), as a function of the
`max_length` argument. -/
def generationParams (max_length : ℕ) : GenParams :=
  ⟨max_length, 2, true, 50, 92/100, 85/100, 10, 12/10, 1, true, 1⟩

/-- The role-marked prompt, `f"User: {user_input}\nAssistant:"`
(model.py line 51). -/
def formatted_input (user_input : String) : String :=
  "User: " ++ user_input ++ "\nAssistant:"

/-- Semantics of the Python slice `xs[start:]` for an arbitrary integer
`start`: a nonnegative start drops that many elements from the front
(clamped at the length), a negative start keeps the last `-start` elements
(clamped at the length). -/
def pySliceFrom (start : ℤ) (xs : List ℕ) : List ℕ :=
  if 0 ≤ start then xs.drop start.toNat
  else xs.drop (xs.length - (-start).toNat)

/-- The mutation of `self.chat_history_ids` performed by lines 59-65 of
`generate_response` before the generation call: when history is present and
the combined length exceeds `max_history_tokens`, the history is replaced by
the slice `[-history_to_keep:]` with
`history_to_keep = max_history_tokens - len(inputs)` (a possibly negative
Python integer). -/
def stateAfterTrim (s : Option (List ℕ)) (inputs0 : List ℕ) : Option (List ℕ) :=
  match s with
  | none => none
  | some h =>
      if h.length + inputs0.length > max_history_tokens then
        some (pySliceFrom (-((max_history_tokens : ℤ) - inputs0.length)) h)
      else some h

/-- The token sequence handed to `model.generate` (the value of `inputs`
after line 66): the trimmed history concatenated with the encoded prompt, or
the encoded prompt alone when there is no history. -/
def assembledInput (s : Option (List ℕ)) (inputs0 : List ℕ) : List ℕ :=
  match stateAfterTrim s inputs0 with
  | none => inputs0
  | some h => h ++ inputs0

/-- Translation of `AIChat.generate_response` (model.py lines 38-92).
`enc` is `tokenizer.encode`, `gen` is `model.generate` (returning `none`
when the external call raises, in which case the exception propagates and
the method produces no reply), and `dec` is `tokenizer.decode` with
`skip_special_tokens=True`.  The returned pair is (reply if any, the value
of `self.chat_history_ids` when the call finishes or raises): on success the
full generation result is stored (line 87) and the reply is the decoded
slice of the result past the model input (lines 90-92); on failure the
state keeps the value the pre-generation trimming left it with. -/
def generate_response (gen : GenParams → List ℕ → Option (List ℕ))
    (enc : String → List ℕ) (dec : List ℕ → String)
    (s : Option (List ℕ)) (user_input : String) (max_length : ℕ) :
    Option String × Option (List ℕ) :=
  match gen (generationParams max_length)
      (assembledInput s (enc (formatted_input user_input))) with
  | none => (none, stateAfterTrim s (enc (formatted_input user_input)))
  | some chat_history_ids =>
      (some (dec (chat_history_ids.drop
          (assembledInput s (enc (formatted_input user_input))).length)),
        some chat_history_ids)

/-- Translation of `AIChat.reset_chat` (model.py lines 94-99):
`self.chat_history_ids = None`. -/
def reset_chat (_s : Option (List ℕ)) : Option (List ℕ) := none

/-- A sequence of `generate_response` calls threading the conversation
state; `some` of the final state if every call succeeded, `none` as soon as
one call fails. -/
def respondSeq (gen : GenParams → List ℕ → Option (List ℕ))
    (enc : String → List ℕ) (dec : List ℕ → String) (m : ℕ) :
    Option (List ℕ) → List String → Option (Option (List ℕ))
  | s, [] => some s
  | s, u :: us =>
      match generate_response gen enc dec s u m with
      | (none, _) => none
      | (some _, s2) => respondSeq gen enc dec m s2 us

/-- Contract of the external generation capability taken from the
specification (section 6): the returned sequence always begins with the
input tokens verbatim. -/
def GenPrefixWF (gen : GenParams → List ℕ → Option (List ℕ)) : Prop :=
  ∀ p inp r, gen p inp = some r → inp <+: r

/-- Contract of the external generation capability taken from the
specification (section 6): generation terminates by the time the total
length reaches `max_length` (or earlier, via the end marker or early
stopping), so the result is never longer than the larger of the input
length and `max_length`. -/
def GenLenWF (gen : GenParams → List ℕ → Option (List ℕ)) : Prop :=
  ∀ p inp r, gen p inp = some r → r.length ≤ max inp.length p.max_length

/-- The retained history as the specification words it (P2): exactly the
last `max_history_tokens - len(new_input_tokens)` tokens of the prior
history.  Stated for comparison with the trimming the code performs. -/
def specRetained (h n : List ℕ) : List ℕ :=
  h.drop (h.length - (max_history_tokens - n.length))

/-- The second stored state begins with a nonempty front-trimmed remnant of
the first stored state, as the specification words it ("possibly trimmed,
never discard it outright"). -/
def beginsWithTrimmed (S1 S2 : List ℕ) : Prop :=
  ∃ k, k < S1.length ∧ S1.drop k <+: S2

/-- Generation oracle that echoes its input: the model emits no new token
(terminates immediately on the end marker).  Satisfies both contracts. -/
def genEcho : GenParams → List ℕ → Option (List ℕ) := fun _ inp => some inp

/-- Generation oracle that always raises. -/
def genFail : GenParams → List ℕ → Option (List ℕ) := fun _ _ => none

/-- Generation oracle that succeeds (echoing) only when handed the sampling
temperature the code fixes; used to observe which parameters
`generate_response` passes. -/
def genEchoTemp : GenParams → List ℕ → Option (List ℕ) :=
  fun p inp => if p.temperature = 85/100 then some inp else none

/-- Generation oracle that succeeds (echoing) only on inputs of length
1020 and raises otherwise. -/
def genOnce : GenParams → List ℕ → Option (List ℕ) :=
  fun _ inp => if inp.length = 1020 then some inp else none

/-- Tokenizer oracle mapping every text to two tokens. -/
def encSmall : String → List ℕ := fun _ => [1, 2]

/-- Tokenizer oracle mapping every text to 1025 tokens (a very long user
message). -/
def encBig : String → List ℕ := fun _ => List.replicate 1025 0

/-- Tokenizer oracle mapping every text to exactly `max_history_tokens`
tokens. -/
def enc1024 : String → List ℕ := fun _ => List.replicate 1024 0

/-- Tokenizer oracle for the failure-atomicity run: the first prompt
encodes to 1020 tokens, every other text to 10 tokens. -/
def encCase : String → List ℕ :=
  fun t => if t = "User: a\nAssistant:" then List.replicate 1020 0
           else List.replicate 10 1

/-- Tokenizer oracle for the history-discarding run: the first prompt
encodes to the single token 5, every other text to 1030 tokens 7. -/
def encC4 : String → List ℕ :=
  fun t => if t = "User: a\nAssistant:" then [5] else List.replicate 1030 7

/-- Decoder oracle mapping every token sequence to the empty string. -/
def dec0 : List ℕ → String := fun _ => ""

/-! Helper lemmas about the trimming primitives. -/

theorem pySliceFrom_nonneg {start : ℤ} (hs : 0 ≤ start) (xs : List ℕ) :
    pySliceFrom start xs = xs.drop start.toNat := by
  unfold pySliceFrom
  rw [if_pos hs]

theorem pySliceFrom_neg {start : ℤ} (hs : start < 0) (xs : List ℕ) :
    pySliceFrom start xs = xs.drop (xs.length - (-start).toNat) := by
  unfold pySliceFrom
  rw [if_neg (by omega)]

theorem stateAfterTrim_some (h n : List ℕ) :
    stateAfterTrim (some h) n =
      if h.length + n.length > max_history_tokens then
        some (pySliceFrom (-((max_history_tokens : ℤ) - n.length)) h)
      else some h := rfl

theorem assembledInput_of_some {s : Option (List ℕ)} {n h2 : List ℕ}
    (hs : stateAfterTrim s n = some h2) : assembledInput s n = h2 ++ n := by
  unfold assembledInput
  rw [hs]

theorem stateAfterTrim_eq_drop (h n : List ℕ) :
    ∃ k, k ≤ h.length ∧ stateAfterTrim (some h) n = some (h.drop k) := by
  rw [stateAfterTrim_some]
  by_cases hover : h.length + n.length > max_history_tokens
  · rw [if_pos hover]
    by_cases hstart : 0 ≤ -((max_history_tokens : ℤ) - n.length)
    · rw [pySliceFrom_nonneg hstart]
      rcases le_or_lt (-((max_history_tokens : ℤ) - n.length)).toNat h.length with hle | hlt
      · exact ⟨_, hle, rfl⟩
      · refine ⟨h.length, le_refl _, ?_⟩
        rw [List.drop_length, List.drop_eq_nil_of_le (by omega)]
    · rw [pySliceFrom_neg (by omega)]
      exact ⟨_, Nat.sub_le _ _, rfl⟩
  · rw [if_neg hover]
    exact ⟨0, Nat.zero_le _, by rw [List.drop_zero]⟩

theorem assembledInput_length_le (s : Option (List ℕ)) (n : List ℕ)
    (hn : n.length < max_history_tokens) :
    (assembledInput s n).length ≤ max_history_tokens := by
  cases s with
  | none =>
      have : assembledInput none n = n := rfl
      rw [this]
      omega
  | some h =>
      by_cases hover : h.length + n.length > max_history_tokens
      · have hs : stateAfterTrim (some h) n =
            some (pySliceFrom (-((max_history_tokens : ℤ) - n.length)) h) := by
          rw [stateAfterTrim_some, if_pos hover]
        rw [assembledInput_of_some hs, List.length_append,
          pySliceFrom_neg (by omega), List.length_drop]
        omega
      · have hs : stateAfterTrim (some h) n = some h := by
          rw [stateAfterTrim_some, if_neg hover]
        rw [assembledInput_of_some hs, List.length_append]
        omega

theorem genEcho_prefixWF : GenPrefixWF genEcho := by
  intro p inp r hr
  have : inp = r := by simpa [genEcho] using hr
  rw [this]

theorem genEcho_lenWF : GenLenWF genEcho := by
  intro p inp r hr
  have : inp = r := by simpa [genEcho] using hr
  rw [← this]
  exact le_max_left _ _

theorem respond_success_bound (gen : GenParams → List ℕ → Option (List ℕ))
    (enc : String → List ℕ) (dec : List ℕ → String)
    (hgen : GenLenWF gen) (s : Option (List ℕ)) (u : String)
    (hn : (enc (formatted_input u)).length < max_history_tokens)
    (r : List ℕ)
    (hsucc : (generate_response gen enc dec s u default_max_length).1.isSome = true)
    (hr : (generate_response gen enc dec s u default_max_length).2 = some r) :
    r.length ≤ max_history_tokens := by
  rcases hg : gen (generationParams default_max_length)
      (assembledInput s (enc (formatted_input u))) with _ | res
  · simp [generate_response, hg] at hsucc
  · simp only [generate_response, hg] at hr
    have hres : res = r := by simpa using hr
    subst hres
    have hlen := hgen _ _ _ hg
    have hin := assembledInput_length_le s (enc (formatted_input u)) hn
    have hml : (generationParams default_max_length).max_length =
        default_max_length := rfl
    rw [hml] at hlen
    have hd : default_max_length ≤ max_history_tokens := by
      norm_num [default_max_length, max_history_tokens]
    exact le_trans hlen (max_le hin hd)

/-! Claim theorems. -/

/-- C6: `reset_chat` empties the conversation state, any number of
consecutive resets leave it empty, and `generate_response` after a reset is
exactly `generate_response` on a fresh (empty) state — no stale history is
combined. -/
theorem c6_reset_idempotent : ∀ s : Option (List ℕ),
    reset_chat s = none
    ∧ (∀ k : ℕ, reset_chat^[k + 1] s = none)
    ∧ ∀ (gen : GenParams → List ℕ → Option (List ℕ)) (enc : String → List ℕ)
        (dec : List ℕ → String) (u : String) (m : ℕ),
        generate_response gen enc dec (reset_chat s) u m =
          generate_response gen enc dec none u m := by
  intro s
  refine ⟨rfl, ?_, ?_⟩
  · intro k
    rw [Function.iterate_succ_apply']
    rfl
  · intro gen enc dec u m
    rfl

/-- C6 witness: the reset facts at a concrete non-empty state. -/
theorem c6_reset_idempotent_witness :
    reset_chat (some [1, 2]) = none
    ∧ reset_chat^[3] (some [1, 2]) = none
    ∧ generate_response genEcho encSmall dec0 (reset_chat (some [1, 2])) "a" 1000 =
        generate_response genEcho encSmall dec0 none "a" 1000 :=
  ⟨(c6_reset_idempotent (some [1, 2])).1,
   (c6_reset_idempotent (some [1, 2])).2.1 2,
   (c6_reset_idempotent (some [1, 2])).2.2 genEcho encSmall dec0 "a" 1000⟩

/-- C7 counterexample: with a 3-token history and a new input of exactly
`max_history_tokens` tokens the trimming branch is taken
(combined length 1027 > 1024), yet the prior history is not modified —
`history_to_keep` is 0 and the slice `[-0:]` keeps everything — refuting
"modifies the prior history ... if and only if prior context exists and
len(history) + len(new_input_tokens) > max_history_tokens". -/
theorem c7_counterexample :
    ([1, 2, 3] : List ℕ).length + (enc1024 (formatted_input "x")).length >
        max_history_tokens
    ∧ stateAfterTrim (some [1, 2, 3]) (enc1024 (formatted_input "x")) =
        some [1, 2, 3]
    ∧ (generate_response genFail enc1024 dec0 (some [1, 2, 3]) "x" 1000).2 =
        some [1, 2, 3] := by
  have htrim : stateAfterTrim (some [1, 2, 3]) (enc1024 (formatted_input "x")) =
      some [1, 2, 3] := by
    rw [stateAfterTrim_some,
      if_pos (by norm_num [enc1024, max_history_tokens]),
      pySliceFrom_nonneg (by norm_num [enc1024, max_history_tokens])]
    have ht : (-((max_history_tokens : ℤ) -
        (enc1024 (formatted_input "x")).length)).toNat = 0 := by
      norm_num [enc1024, max_history_tokens]
    rw [ht, List.drop_zero]
  refine ⟨by norm_num [enc1024, max_history_tokens], htrim, ?_⟩
  show (generate_response genFail enc1024 dec0 (some [1, 2, 3]) "x" 1000).2 =
    some [1, 2, 3]
  rw [show generate_response genFail enc1024 dec0 (some [1, 2, 3]) "x" 1000 =
      (none, stateAfterTrim (some [1, 2, 3]) (enc1024 (formatted_input "x")))
    from rfl]
  rw [htrim]

/-- C7 amended: the prior history value is changed by `generate_response`'s
pre-generation step if and only if prior context exists, is non-empty, the
combined length exceeds `max_history_tokens`, and the encoded new input does
not have exactly `max_history_tokens` tokens (in that last case the slice
`[-0:]` retains the whole history unchanged); on a fresh (`none`) state no
trimming happens and the model input is exactly the encoded new input. -/
theorem c7_trim_condition : ∀ (h n : List ℕ),
    (stateAfterTrim (some h) n ≠ some h ↔
      (h ≠ [] ∧ h.length + n.length > max_history_tokens ∧
        n.length ≠ max_history_tokens))
    ∧ stateAfterTrim none n = none
    ∧ assembledInput none n = n := by
  intro h n
  refine ⟨?_, rfl, rfl⟩
  rw [stateAfterTrim_some]
  by_cases hover : h.length + n.length > max_history_tokens
  · rw [if_pos hover]
    rcases lt_trichotomy n.length max_history_tokens with hL | hL | hL
    · rw [pySliceFrom_neg (by omega)]
      have ht : (-(-((max_history_tokens : ℤ) - n.length))).toNat =
          max_history_tokens - n.length := by omega
      rw [ht]
      constructor
      · intro _
        exact ⟨List.length_pos.mp (by omega), hover, by omega⟩
      · intro _ heq
        have hlen := congrArg List.length (Option.some.inj heq)
        rw [List.length_drop] at hlen
        omega
    · rw [pySliceFrom_nonneg (by omega)]
      have ht : (-((max_history_tokens : ℤ) - n.length)).toNat = 0 := by omega
      rw [ht, List.drop_zero]
      constructor
      · intro hne2
        exact absurd rfl hne2
      · rintro ⟨-, -, hLne⟩
        exact absurd hL hLne
    · rw [pySliceFrom_nonneg (by omega)]
      have ht : (-((max_history_tokens : ℤ) - n.length)).toNat =
          n.length - max_history_tokens := by omega
      rw [ht]
      constructor
      · intro hne2
        refine ⟨?_, hover, by omega⟩
        intro hnil
        apply hne2
        rw [hnil]
        simp
      · rintro ⟨hnil, -, -⟩
        intro heq
        have hlen := congrArg List.length (Option.some.inj heq)
        rw [List.length_drop] at hlen
        have hpos : 0 < h.length := List.length_pos.mpr hnil
        omega
  · rw [if_neg hover]
    constructor
    · intro hne2
      exact absurd rfl hne2
    · rintro ⟨-, hov2, -⟩
      exact absurd hov2 hover

/-- C7 witness: a 1020-token history with a 10-token input (combined 1030 >
1024, input length different from 1024) really is changed by the trim. -/
theorem c7_trim_condition_witness :
    stateAfterTrim (some (List.replicate 1020 5)) (List.replicate 10 0) ≠
      some (List.replicate 1020 5) :=
  (c7_trim_condition (List.replicate 1020 5) (List.replicate 10 0)).1.mpr
    ⟨by
      intro hh
      have hl := congrArg List.length hh
      rw [List.length_replicate, List.length_nil] at hl
      exact absurd hl (by norm_num),
     by norm_num [max_history_tokens],
     by norm_num [max_history_tokens]⟩

/-- C8: every `generate_response` call hands the generation capability the
fixed sampling configuration of model.py lines 70-84 — temperature 0.85,
top-k 50, top-p 0.92, repetition penalty 1.2, no-repeat n-gram size 2,
minimum length 10, early stopping, one returned sequence — together with the
`max_length` argument, whose default is 1000; the call depends on the
generation oracle only through its behaviour at exactly these parameters. -/
theorem c8_generation_params (m : ℕ)
    (gen gen2 : GenParams → List ℕ → Option (List ℕ))
    (enc : String → List ℕ) (dec : List ℕ → String)
    (s : Option (List ℕ)) (u : String)
    (hagree : ∀ inp, gen (generationParams m) inp = gen2 (generationParams m) inp) :
    (generationParams m).max_length = m
    ∧ default_max_length = 1000
    ∧ (generationParams m).temperature = 85/100
    ∧ (generationParams m).top_k = 50
    ∧ (generationParams m).top_p = 92/100
    ∧ (generationParams m).repetition_penalty = 12/10
    ∧ (generationParams m).no_repeat_ngram_size = 2
    ∧ (generationParams m).min_length = 10
    ∧ (generationParams m).early_stopping = true
    ∧ (generationParams m).num_return_sequences = 1
    ∧ (generationParams m).do_sample = true
    ∧ generate_response gen enc dec s u m = generate_response gen2 enc dec s u m := by
  refine ⟨rfl, rfl, rfl, rfl, rfl, rfl, rfl, rfl, rfl, rfl, rfl, ?_⟩
  unfold generate_response
  rw [hagree]

/-- C8 witness: two oracles that agree at the configuration the code passes
(one of them succeeds only when given sampling temperature 0.85) make
`generate_response` behave identically. -/
theorem c8_generation_params_witness :
    (generationParams 1000).max_length = 1000
    ∧ default_max_length = 1000
    ∧ (generationParams 1000).temperature = 85/100
    ∧ (generationParams 1000).top_k = 50
    ∧ (generationParams 1000).top_p = 92/100
    ∧ (generationParams 1000).repetition_penalty = 12/10
    ∧ (generationParams 1000).no_repeat_ngram_size = 2
    ∧ (generationParams 1000).min_length = 10
    ∧ (generationParams 1000).early_stopping = true
    ∧ (generationParams 1000).num_return_sequences = 1
    ∧ (generationParams 1000).do_sample = true
    ∧ generate_response genEcho encSmall dec0 none "a" 1000 =
        generate_response genEchoTemp encSmall dec0 none "a" 1000 :=
  c8_generation_params 1000 genEcho genEchoTemp encSmall dec0 none "a"
    (fun inp => by simp [genEcho, genEchoTemp, generationParams])

/-- C10: `generate_response` validates nothing about `user_input` — for the
empty string (as for any string) it formats the prompt
"User: " ++ input ++ "\nAssistant:", encodes it, and proceeds; the call can
only fail through the external generation capability, and its behaviour
depends on the user text only through the encoding of the formatted
prompt. -/
theorem c10_no_input_validation (gen : GenParams → List ℕ → Option (List ℕ))
    (enc : String → List ℕ) (dec : List ℕ → String) (s : Option (List ℕ))
    (m : ℕ) (u u2 : String)
    (hsame : enc (formatted_input u) = enc (formatted_input u2)) :
    formatted_input "" = "User: \nAssistant:"
    ∧ generate_response gen enc dec s u m = generate_response gen enc dec s u2 m
    ∧ ((generate_response gen enc dec s "" m).1 = none ↔
        gen (generationParams m)
          (assembledInput s (enc (formatted_input ""))) = none) := by
  refine ⟨rfl, ?_, ?_⟩
  · unfold generate_response
    rw [hsame]
  · rcases hg : gen (generationParams m)
        (assembledInput s (enc (formatted_input ""))) with _ | r
    · simp [generate_response, hg]
    · simp [generate_response, hg]

/-- C10 witness: the empty user input goes through like any other; with the
echoing oracle the call does not fail. -/
theorem c10_no_input_validation_witness :
    formatted_input "" = "User: \nAssistant:"
    ∧ generate_response genEcho encSmall dec0 none "" 1000 =
        generate_response genEcho encSmall dec0 none "x" 1000
    ∧ ((generate_response genEcho encSmall dec0 none "" 1000).1 = none ↔
        genEcho (generationParams 1000)
          (assembledInput none (encSmall (formatted_input ""))) = none) :=
  c10_no_input_validation genEcho encSmall dec0 none 1000 "" "x" rfl

/-- C5: on a successful call the returned reply is the decoding (by the
skip-special-tokens decoder) of exactly the suffix of the stored generation
result past the model input, and — when the generation result begins with
its input, as the external contract guarantees — that extracted slice is
exactly the newly generated continuation: prepending the model input to it
reconstitutes the result, so no part of the model input is in the slice. -/
theorem c5_extraction (gen : GenParams → List ℕ → Option (List ℕ))
    (enc : String → List ℕ) (dec : List ℕ → String) (hgen : GenPrefixWF gen)
    (s : Option (List ℕ)) (u : String) (m : ℕ) (reply : String) (r : List ℕ)
    (h1 : (generate_response gen enc dec s u m).1 = some reply)
    (h2 : (generate_response gen enc dec s u m).2 = some r) :
    reply = dec (r.drop (assembledInput s (enc (formatted_input u))).length)
    ∧ assembledInput s (enc (formatted_input u)) ++
        r.drop (assembledInput s (enc (formatted_input u))).length = r := by
  rcases hg : gen (generationParams m)
      (assembledInput s (enc (formatted_input u))) with _ | res
  · simp [generate_response, hg] at h1
  · simp only [generate_response, hg] at h1 h2
    have hres : res = r := by simpa using h2
    subst hres
    have hrep := Option.some.inj h1
    refine ⟨hrep.symm, ?_⟩
    obtain ⟨t, ht⟩ := hgen _ _ _ hg
    rw [← ht, List.drop_left]

/-- C5 witness: a concrete successful first turn with the echoing oracle;
the extracted slice is empty and the reply decodes it. -/
theorem c5_extraction_witness :
    "" = dec0 (([1, 2] : List ℕ).drop
        (assembledInput none (encSmall (formatted_input "a"))).length)
    ∧ assembledInput none (encSmall (formatted_input "a")) ++
        ([1, 2] : List ℕ).drop
          (assembledInput none (encSmall (formatted_input "a"))).length = [1, 2] :=
  c5_extraction genEcho encSmall dec0 genEcho_prefixWF none "a" 1000 "" [1, 2]
    rfl rfl

/-- C9: when prior history exists, the trim branch runs, and the encoded new
input alone is at least `max_history_tokens` long, the slice does not
produce the nominal suffix: with exactly `max_history_tokens` input tokens
(`history_to_keep = 0`) the whole history is retained, with more
(`history_to_keep < 0`) only the first `-history_to_keep` tokens are
dropped; either way the assembled model input exceeds
`max_history_tokens`. -/
theorem c9_oversized_input (h n : List ℕ)
    (hn : max_history_tokens ≤ n.length)
    (hover : h.length + n.length > max_history_tokens) :
    (n.length = max_history_tokens → stateAfterTrim (some h) n = some h)
    ∧ (n.length > max_history_tokens →
        stateAfterTrim (some h) n =
          some (h.drop (n.length - max_history_tokens)))
    ∧ (assembledInput (some h) n).length > max_history_tokens := by
  have hs0 : stateAfterTrim (some h) n =
      some (pySliceFrom (-((max_history_tokens : ℤ) - n.length)) h) := by
    rw [stateAfterTrim_some, if_pos hover]
  have htrim : stateAfterTrim (some h) n =
      some (h.drop (n.length - max_history_tokens)) := by
    rw [hs0, pySliceFrom_nonneg (by omega)]
    have ht : (-((max_history_tokens : ℤ) - n.length)).toNat =
        n.length - max_history_tokens := by omega
    rw [ht]
  refine ⟨?_, fun _ => htrim, ?_⟩
  · intro hEq
    rw [htrim]
    have h0 : n.length - max_history_tokens = 0 := by omega
    rw [h0, List.drop_zero]
  · rw [assembledInput_of_some htrim, List.length_append, List.length_drop]
    omega

/-- C9 witness: a 3-token history with a 1024-token new input — the branch
runs, everything is retained, and the model input has 1027 tokens. -/
theorem c9_oversized_input_witness :
    ((List.replicate 1024 (0 : ℕ)).length = max_history_tokens →
        stateAfterTrim (some [1, 2, 3]) (List.replicate 1024 0) = some [1, 2, 3])
    ∧ ((List.replicate 1024 (0 : ℕ)).length > max_history_tokens →
        stateAfterTrim (some [1, 2, 3]) (List.replicate 1024 0) =
          some (([1, 2, 3] : List ℕ).drop
            ((List.replicate 1024 (0 : ℕ)).length - max_history_tokens)))
    ∧ (assembledInput (some [1, 2, 3]) (List.replicate 1024 0)).length >
        max_history_tokens :=
  c9_oversized_input [1, 2, 3] (List.replicate 1024 0)
    (by norm_num [max_history_tokens]) (by norm_num [max_history_tokens])

/-- C3 counterexample: history of 5 tokens, new input of exactly 1024
tokens — trimming occurs (combined 1029 > 1024), the specification's
retained suffix (the last `1024 - 1024 = 0` tokens) is empty, but the code's
slice `[-0:]` retains the whole 5-token history, so the retained history is
not the stated suffix. -/
theorem c3_counterexample :
    ([1, 2, 3, 4, 5] : List ℕ).length + (List.replicate 1024 (0 : ℕ)).length >
        max_history_tokens
    ∧ stateAfterTrim (some [1, 2, 3, 4, 5]) (List.replicate 1024 0) =
        some [1, 2, 3, 4, 5]
    ∧ specRetained [1, 2, 3, 4, 5] (List.replicate 1024 0) = []
    ∧ ([1, 2, 3, 4, 5] : List ℕ) ≠ [] := by
  refine ⟨by norm_num [max_history_tokens], ?_, ?_, by decide⟩
  · rw [stateAfterTrim_some, if_pos (by norm_num [max_history_tokens]),
      pySliceFrom_nonneg (by norm_num [max_history_tokens])]
    have ht : (-((max_history_tokens : ℤ) -
        (List.replicate 1024 (0 : ℕ)).length)).toNat = 0 := by
      norm_num [max_history_tokens]
    rw [ht, List.drop_zero]
  · have h5 : ([1, 2, 3, 4, 5] : List ℕ).length -
        (max_history_tokens - (List.replicate 1024 (0 : ℕ)).length) = 5 := by
      norm_num [max_history_tokens]
    unfold specRetained
    rw [h5]
    rfl

/-- C3 amended: whenever trimming occurs and the encoded new input is
strictly shorter than `max_history_tokens`, the retained history is exactly
the suffix of the prior history made of its last
`max_history_tokens - len(new_input_tokens)` tokens (with exactly that
length); the untrimmed corner `len(new_input_tokens) >= max_history_tokens`
is excluded, as the counterexample forces. -/
theorem c3_recency (h n : List ℕ)
    (hover : h.length + n.length > max_history_tokens)
    (hn : n.length < max_history_tokens) :
    stateAfterTrim (some h) n = some (specRetained h n)
    ∧ (specRetained h n).length = max_history_tokens - n.length
    ∧ specRetained h n <:+ h := by
  have hs : stateAfterTrim (some h) n =
      some (h.drop (h.length - (max_history_tokens - n.length))) := by
    rw [stateAfterTrim_some, if_pos hover, pySliceFrom_neg (by omega)]
    have ht : (-(-((max_history_tokens : ℤ) - n.length))).toNat =
        max_history_tokens - n.length := by omega
    rw [ht]
  refine ⟨by rw [hs]; rfl, ?_, ?_⟩
  · unfold specRetained
    rw [List.length_drop]
    omega
  · exact ⟨h.take (h.length - (max_history_tokens - n.length)),
      List.take_append_drop _ _⟩

/-- C3 witness: 1020-token history plus 10-token input is trimmed to
exactly the last 1014 tokens. -/
theorem c3_recency_witness :
    stateAfterTrim (some (List.replicate 1020 7)) (List.replicate 10 1) =
      some (specRetained (List.replicate 1020 7) (List.replicate 10 1))
    ∧ (specRetained (List.replicate 1020 7) (List.replicate 10 1)).length =
        max_history_tokens - (List.replicate 10 (1 : ℕ)).length
    ∧ specRetained (List.replicate 1020 7) (List.replicate 10 1) <:+
        List.replicate 1020 7 :=
  c3_recency (List.replicate 1020 7) (List.replicate 10 1)
    (by norm_num [max_history_tokens]) (by norm_num [max_history_tokens])

/-- C2 counterexample: a successful first turn leaves a 1020-token state;
the second turn's 10-token input triggers trimming to 1014 tokens before the
generation call, the call then raises, and the state after the failed call
is the trimmed 1014-token history — not the 1020-token state from before the
call, refuting failure atomicity. -/
theorem c2_counterexample :
    generate_response genOnce encCase dec0 none "a" 1000 =
      (some "", some (List.replicate 1020 0))
    ∧ (generate_response genOnce encCase dec0
        (some (List.replicate 1020 0)) "b" 1000).1 = none
    ∧ (generate_response genOnce encCase dec0
        (some (List.replicate 1020 0)) "b" 1000).2 = some (List.replicate 1014 0)
    ∧ some (List.replicate 1014 0) ≠ some (List.replicate 1020 (0 : ℕ)) := by
  have hE1 : encCase (formatted_input "a") = List.replicate 1020 0 := by
    simp only [encCase]
    rw [if_pos (show formatted_input "a" = "User: a\nAssistant:" from rfl)]
  have hA1 : assembledInput none (encCase (formatted_input "a")) =
      List.replicate 1020 0 := by
    rw [show assembledInput none (encCase (formatted_input "a")) =
      encCase (formatted_input "a") from rfl, hE1]
  have hg1 : genOnce (generationParams 1000) (List.replicate 1020 0) =
      some (List.replicate 1020 0) := by
    simp only [genOnce]
    rw [if_pos (by norm_num)]
  have hcall1 : generate_response genOnce encCase dec0 none "a" 1000 =
      (some "", some (List.replicate 1020 0)) := by
    unfold generate_response
    rw [hA1, hg1]
    rfl
  have hE2 : encCase (formatted_input "b") = List.replicate 10 1 := by
    simp only [encCase]
    rw [if_neg (by decide)]
  have htrim2 : stateAfterTrim (some (List.replicate 1020 0))
      (List.replicate 10 1) = some (List.replicate 1014 0) := by
    rw [stateAfterTrim_some, if_pos (by norm_num [max_history_tokens]),
      pySliceFrom_neg (by norm_num [max_history_tokens])]
    have ht : (-(-((max_history_tokens : ℤ) -
        (List.replicate 10 (1 : ℕ)).length))).toNat = 1014 := by
      simp only [List.length_replicate, max_history_tokens]
      omega
    rw [ht]
    norm_num [List.drop_replicate]
  have hg2 : genOnce (generationParams 1000)
      (List.replicate 1014 0 ++ List.replicate 10 1) = none := by
    simp only [genOnce]
    rw [if_neg (by norm_num)]
  have hcall2 : generate_response genOnce encCase dec0
      (some (List.replicate 1020 0)) "b" 1000 =
      (none, some (List.replicate 1014 0)) := by
    unfold generate_response
    rw [hE2, assembledInput_of_some htrim2, hg2, htrim2]
  refine ⟨hcall1, by rw [hcall2], by rw [hcall2], ?_⟩
  intro heq
  have hl := congrArg List.length (Option.some.inj heq)
  rw [List.length_replicate, List.length_replicate] at hl
  exact absurd hl (by norm_num)

/-- C2 amended: when the generation call fails the error propagates (no
reply is produced) and the state after the failed call is exactly what the
pre-generation trimming left: equal to the state before the call whenever no
trimming occurred (in particular whenever the combined length is within
`max_history_tokens`), and equal to the front-trimmed prior history
otherwise; the generation result is never stored on failure. -/
theorem c2_failure_state (gen : GenParams → List ℕ → Option (List ℕ))
    (enc : String → List ℕ) (dec : List ℕ → String)
    (s : Option (List ℕ)) (u : String) (m : ℕ)
    (hfail : (generate_response gen enc dec s u m).1 = none) :
    (generate_response gen enc dec s u m).2 =
      stateAfterTrim s (enc (formatted_input u))
    ∧ ∀ h2, s = some h2 →
        h2.length + (enc (formatted_input u)).length ≤ max_history_tokens →
        (generate_response gen enc dec s u m).2 = s := by
  rcases hg : gen (generationParams m)
      (assembledInput s (enc (formatted_input u))) with _ | res
  · constructor
    · simp [generate_response, hg]
    · intro h2 hs hle
      subst hs
      simp only [generate_response, hg]
      rw [stateAfterTrim_some, if_neg (by omega)]
  · simp [generate_response, hg] at hfail

/-- C2 witness: a failing generation call on a small state leaves the state
exactly as it was. -/
theorem c2_failure_state_witness :
    (generate_response genFail encSmall dec0 (some [9]) "a" 1000).2 =
      stateAfterTrim (some [9]) (encSmall (formatted_input "a"))
    ∧ ∀ h2, (some [9] : Option (List ℕ)) = some h2 →
        h2.length + (encSmall (formatted_input "a")).length ≤ max_history_tokens →
        (generate_response genFail encSmall dec0 (some [9]) "a" 1000).2 =
          some [9] :=
  c2_failure_state genFail encSmall dec0 (some [9]) "a" 1000 rfl

/-- C4 counterexample: first stored state is the single token [5]; the
second turn encodes to 1030 tokens, so `history_to_keep = -6` and the slice
drops the first 6 tokens of the 1-token history, leaving nothing — the
second stored state starts with no nonempty remnant of the first, i.e. the
prior state is discarded outright, refuting "never discarding it
outright". -/
theorem c4_counterexample :
    generate_response genEcho encC4 dec0 none "a" 1000 = (some "", some [5])
    ∧ (generate_response genEcho encC4 dec0 (some [5]) "b" 1000).1.isSome = true
    ∧ (generate_response genEcho encC4 dec0 (some [5]) "b" 1000).2 =
        some (List.replicate 1030 7)
    ∧ ¬ beginsWithTrimmed [5] (List.replicate 1030 7) := by
  have hE1 : encC4 (formatted_input "a") = [5] := by
    simp only [encC4]
    rw [if_pos (show formatted_input "a" = "User: a\nAssistant:" from rfl)]
  have hcall1 : generate_response genEcho encC4 dec0 none "a" 1000 =
      (some "", some [5]) := by
    unfold generate_response
    rw [show assembledInput none (encC4 (formatted_input "a")) =
      encC4 (formatted_input "a") from rfl, hE1]
    rfl
  have hE2 : encC4 (formatted_input "b") = List.replicate 1030 7 := by
    simp only [encC4]
    rw [if_neg (by decide)]
  have htrimB : stateAfterTrim (some [5]) (List.replicate 1030 7) = some [] := by
    rw [stateAfterTrim_some,
      if_pos (by norm_num [max_history_tokens]),
      pySliceFrom_nonneg (by
        simp only [List.length_replicate, max_history_tokens]
        omega)]
    have ht : (-((max_history_tokens : ℤ) -
        (List.replicate 1030 (7 : ℕ)).length)).toNat = 6 := by
      simp only [List.length_replicate, max_history_tokens]
      omega
    rw [ht]
    rfl
  have hcall2 : generate_response genEcho encC4 dec0 (some [5]) "b" 1000 =
      (some "", some (List.replicate 1030 7)) := by
    unfold generate_response
    rw [hE2, assembledInput_of_some htrimB]
    rfl
  refine ⟨hcall1, by rw [hcall2]; rfl, by rw [hcall2], ?_⟩
  intro hb
  unfold beginsWithTrimmed at hb
  obtain ⟨k, hk, hpre⟩ := hb
  have hk0 : k = 0 := by
    have hk1 : k < 1 := by simpa using hk
    omega
  subst hk0
  rw [List.drop_zero] at hpre
  obtain ⟨t, ht⟩ := hpre
  have hrep : List.replicate 1030 (7 : ℕ) = 7 :: List.replicate 1029 7 := rfl
  rw [hrep] at ht
  simp only [List.cons_append, List.nil_append] at ht
  injection ht with h1 h2
  exact absurd h1 (by norm_num)

/-- C4 amended: after a successful call the stored state is the full
generation result — the model input followed by the continuation — and for
two consecutive successful calls the second stored state begins with a
(possibly empty) front-trimmed suffix of the first stored state; the
"never discarded outright" strengthening fails only in the corner where the
new input alone exceeds the window by at least the history length. -/
theorem c4_persist (gen : GenParams → List ℕ → Option (List ℕ))
    (enc : String → List ℕ) (dec : List ℕ → String) (hgen : GenPrefixWF gen)
    (s : Option (List ℕ)) (u1 u2 : String) (m : ℕ) (S1 S2 : List ℕ)
    (_h1s : (generate_response gen enc dec s u1 m).1.isSome = true)
    (_h1 : (generate_response gen enc dec s u1 m).2 = some S1)
    (h2s : (generate_response gen enc dec (some S1) u2 m).1.isSome = true)
    (h2 : (generate_response gen enc dec (some S1) u2 m).2 = some S2) :
    (∃ cont, S2 = assembledInput (some S1) (enc (formatted_input u2)) ++ cont)
    ∧ ∃ k, k ≤ S1.length ∧ S1.drop k <+: S2 := by
  rcases hg : gen (generationParams m)
      (assembledInput (some S1) (enc (formatted_input u2))) with _ | res
  · simp [generate_response, hg] at h2s
  · simp only [generate_response, hg] at h2
    have hres : res = S2 := by simpa using h2
    subst hres
    have hpre := hgen _ _ _ hg
    constructor
    · obtain ⟨t, ht⟩ := hpre
      exact ⟨t, ht.symm⟩
    · obtain ⟨k, hk, htr⟩ := stateAfterTrim_eq_drop S1 (enc (formatted_input u2))
      refine ⟨k, hk, ?_⟩
      have hpre2 : S1.drop k <+:
          assembledInput (some S1) (enc (formatted_input u2)) := by
        rw [assembledInput_of_some htr]
        exact ⟨enc (formatted_input u2), rfl⟩
      exact hpre2.trans hpre

/-- C4 witness: two successful small turns; the second state [1,2,1,2] is
the model input plus (empty) continuation and begins with the untrimmed
first state [1,2]. -/
theorem c4_persist_witness :
    (∃ cont, ([1, 2, 1, 2] : List ℕ) =
        assembledInput (some [1, 2]) (encSmall (formatted_input "b")) ++ cont)
    ∧ ∃ k, k ≤ ([1, 2] : List ℕ).length ∧
        ([1, 2] : List ℕ).drop k <+: [1, 2, 1, 2] :=
  c4_persist genEcho encSmall dec0 genEcho_prefixWF none "a" "b" 1000 [1, 2]
    [1, 2, 1, 2] rfl rfl rfl rfl

/-- C1 counterexample: a single successful first turn whose prompt encodes
to 1025 tokens (no prior history, so no trimming) stores a 1025-token
state — more than `max_history_tokens`, refuting the window bound as
stated.  The echoing oracle satisfies both external contracts. -/
theorem c1_counterexample :
    (generate_response genEcho encBig dec0 none "hi" 1000).1.isSome = true
    ∧ (generate_response genEcho encBig dec0 none "hi" 1000).2 =
        some (List.replicate 1025 0)
    ∧ (List.replicate 1025 (0 : ℕ)).length > max_history_tokens := by
  have hcall : generate_response genEcho encBig dec0 none "hi" 1000 =
      (some "", some (List.replicate 1025 0)) := by
    unfold generate_response
    rw [show assembledInput none (encBig (formatted_input "hi")) =
      List.replicate 1025 0 from rfl]
    rfl
  exact ⟨by rw [hcall]; rfl, by rw [hcall], by norm_num [max_history_tokens]⟩

/-- C1 amended: the window bound holds for every non-empty sequence of
successful calls at the default `max_length` provided the generation
capability obeys its length contract and every encoded prompt is strictly
shorter than `max_history_tokens`; after each call the stored state has at
most `max_history_tokens` tokens. -/
theorem c1_window_bound (gen : GenParams → List ℕ → Option (List ℕ))
    (enc : String → List ℕ) (dec : List ℕ → String) (hgen : GenLenWF gen)
    (henc : ∀ t, (enc t).length < max_history_tokens)
    (us : List String) (s s2 : Option (List ℕ)) (l : List ℕ)
    (hne : us ≠ [])
    (hrun : respondSeq gen enc dec default_max_length s us = some s2)
    (hl : s2 = some l) :
    l.length ≤ max_history_tokens := by
  induction us generalizing s with
  | nil => exact absurd rfl hne
  | cons u us ih =>
    rcases hq : generate_response gen enc dec s u default_max_length with ⟨o, st⟩
    simp only [respondSeq] at hrun
    rw [hq] at hrun
    cases o with
    | none => exact Option.noConfusion hrun
    | some rep =>
      have hrun2 : respondSeq gen enc dec default_max_length st us = some s2 :=
        hrun
      cases us with
      | nil =>
          have hst : st = s2 := Option.some.inj hrun2
          refine respond_success_bound gen enc dec hgen s u (henc _) l ?_ ?_
          · rw [hq]
            rfl
          · rw [hq]
            show st = some l
            rw [hst, hl]
      | cons v vs =>
          exact ih st (by simp) hrun2

/-- C1 witness: a two-turn run with two-token prompts ends in a four-token
state, within the window. -/
theorem c1_window_bound_witness :
    ([1, 2, 1, 2] : List ℕ).length ≤ max_history_tokens :=
  c1_window_bound genEcho encSmall dec0 genEcho_lenWF
    (fun t => by norm_num [encSmall, max_history_tokens])
    ["a", "b"] none (some [1, 2, 1, 2]) [1, 2, 1, 2] (by simp) rfl rfl
